import Mathlib

/-!
Verification of the SSI wallet/verifier core (credential store, proof-request
lifecycle, attribute derivation, presentation construction and the
verification pipeline), shallowly embedded from the JavaScript sources
(`WalletBackend/walletKeys.js` wallet service and the verifier service).

JavaScript objects holding string-keyed fields are modelled as ordered
association lists (JS object property insertion order), JSON values as the
inductive `JsVal`, `JSON.stringify` as `stringifyVal`, machine time as
integer milliseconds since the Unix epoch (local time zone = UTC), and the
blockchain registry and ECDSA primitives as explicit function parameters.
-/

set_option autoImplicit false

namespace SSI

/-! ### Ordered association lists: JS object semantics -/

/-- Property read `o[k]`: first entry with the key, `none` = `undefined`. -/
def alistGet {α : Type} : List (String × α) → String → Option α
  | [], _ => none
  | (k, v) :: rest, key => if k = key then some v else alistGet rest key

/-- Property write `o[k] = v`: replace in place, else append (JS insertion
order semantics for string keys). -/
def alistPut {α : Type} : List (String × α) → String → α → List (String × α)
  | [], key, val => [(key, val)]
  | (k, v) :: rest, key, val =>
    if k = key then (k, val) :: rest else (k, v) :: alistPut rest key val

/-! ### JSON values and `JSON.stringify` -/

/-- A JSON value as stored in the wallet's records (the credential claims and
derived attributes in this system are strings, booleans and nested objects). -/
inductive JsVal where
  | str (s : String)
  | bool (b : Bool)
  | null
  | obj (fields : List (String × JsVal))
  deriving Repr

mutual

/-- Model of `JSON.stringify` (compact form, as Node produces for these payloads). -/
def stringifyVal : JsVal → String
  | .str s => "\"" ++ s ++ "\""
  | .bool b => if b then "true" else "false"
  | .null => "null"
  | .obj fs => "\x7b" ++ stringifyFields fs ++ "\x7d"

def stringifyFields : List (String × JsVal) → String
  | [] => ""
  | [(k, v)] => "\"" ++ k ++ "\":" ++ stringifyVal v
  | (k, v) :: f :: fs =>
    "\"" ++ k ++ "\":" ++ stringifyVal v ++ "," ++ stringifyFields (f :: fs)

end

/-! ### Proleptic Gregorian day arithmetic (the `Date` fragment the code uses) -/

/-- Days since 1970-01-01 of the civil date `(y, m, d)`; `d` may lie outside
`1..31` and rolls over exactly as the JS `Date(y, m, d)` constructor does. -/
def daysFromCivil (y m d : Int) : Int :=
  let y' := if m ≤ 2 then y - 1 else y
  let era := y'.fdiv 400
  let yoe := y' - era * 400
  let mp := (m + 9).fmod 12
  let doy := (153 * mp + 2).fdiv 5 + d - 1
  let doe := yoe * 365 + yoe.fdiv 4 - yoe.fdiv 100 + doy
  era * 146097 + doe - 719468

/-- Civil date `(year, month, day)` of a day count since 1970-01-01. -/
def civilFromDays (z : Int) : Int × Int × Int :=
  let z' := z + 719468
  let era := z'.fdiv 146097
  let doe := z' - era * 146097
  let yoe := (doe - doe.fdiv 1460 + doe.fdiv 36524 - doe.fdiv 146096).fdiv 365
  let y := yoe + era * 400
  let doy := doe - (365 * yoe + yoe.fdiv 4 - yoe.fdiv 100)
  let mp := (5 * doy + 2).fdiv 153
  let d := doy - (153 * mp + 2).fdiv 5 + 1
  let m := if mp < 10 then mp + 3 else mp - 9
  (if m ≤ 2 then y + 1 else y, m, d)

/-- Model of `new Date(ms).getUTCFullYear()` for a finite time value. -/
def getUTCFullYear (ms : Int) : Int :=
  (civilFromDays (ms.fdiv 86400000)).1

/-- Model of `new Date(y, mIdx, d).getTime()` (month index based, with month and day
rollover and the JS mapping of two-digit years to 1900–1999); local time zone
modelled as UTC. -/
def jsDateMs (y mIdx d : Int) : Int :=
  let yFull := if 0 ≤ y ∧ y ≤ 99 then y + 1900 else y
  let y' := yFull + mIdx.fdiv 12
  let m' := mIdx.fmod 12 + 1
  86400000 * daysFromCivil y' m' d

/-- Largest finite JS time value (`8.64e15` ms); beyond it a `Date` is invalid
and its time value is `NaN`. -/
def jsMaxTime : Int := 8640000000000000

/-! ### `computeAge` (wallet backend) -/

/-- Split a character list at every occurrence of `sep` (the semantics of the
JS `String.prototype.split` with a one-character separator). -/
def splitOnChar (sep : Char) : List Char → List (List Char)
  | [] => [[]]
  | c :: rest =>
    match splitOnChar sep rest with
    | [] => [[c]]
    | g :: gs => if c = sep then [] :: g :: gs else (c :: g) :: gs

/-- Value of a list of decimal digit characters. -/
def digitsToNat (cs : List Char) : Nat :=
  cs.foldl (fun n c => 10 * n + (c.toNat - 48)) 0

/-- Model of `Number(s)` restricted to the shapes that occur when splitting a date
string: a digit string parses to its value, the empty string parses to `0`,
anything else is `NaN` (`none`). -/
def jsNumber (cs : List Char) : Option Int :=
  if cs = [] then some 0
  else if cs.all (fun c => c.isDigit) then some (digitsToNat cs) else none

/-- Model of `dobStr.split("-").map(Number)` destructured as `[y, m, d]`: `some` iff the
first three parts all parse as numbers (extra parts are ignored; a missing or
non-numeric part makes the constructed `Date` invalid). -/
def parseDateNums (s : String) : Option (Int × Int × Int) :=
  match (splitOnChar '-' s.toList).map jsNumber with
  | some y :: some m :: some d :: _ => some (y, m, d)
  | _ => none

/-- The JS number `computeAge` evaluates to: a finite number, `NaN` (invalid
date arithmetic) or `null` (the `catch` branch, reached when `dobStr` is not a
string and `.split` throws). -/
inductive AgeVal where
  | num (n : Int)
  | nan
  | null
  deriving DecidableEq, Repr

/-- Function `computeAge(dobStr)` from `walletKeys.js`, with the current time passed
explicitly: epoch-difference trick `new Date(Date.now() - dob.getTime())`
followed by `Math.abs(age_dt.getUTCFullYear() - 1970)`. -/
def computeAge (dobv : Option JsVal) (nowMs : Int) : AgeVal :=
  match dobv with
  | some (.str s) =>
    match parseDateNums s with
    | some (y, m, d) =>
      let dobMs := jsDateMs y (m - 1) d
      if dobMs.natAbs > jsMaxTime.toNat then .nan
      else
        let diff := nowMs - dobMs
        if diff.natAbs > jsMaxTime.toNat then .nan
        else .num ((getUTCFullYear diff - 1970).natAbs)
    | none => .nan
  | _ => .null

/-- The JS comparison `age >= 18` (`NaN >= 18` and `null >= 18` are false). -/
def ageGE18 : AgeVal → Bool
  | .num n => 18 ≤ n
  | .nan => false
  | .null => false

/-! ### `pan.slice(-4)` -/

/-- Model of `s.slice(-4)`: the last four characters, or the whole string when it is
shorter than four characters. -/
def sliceLast4 (s : String) : String :=
  String.mk (s.toList.drop (s.toList.length - 4))

/-! ### Hex padding for registry calls -/

def isHexChar (c : Char) : Bool :=
  c.isDigit || ('a' ≤ c && c ≤ 'f') || ('A' ≤ c && c ≤ 'F')

def hexLower (c : Char) : Char :=
  if 'A' ≤ c && c ≤ 'F' then Char.ofNat (c.toNat + 32) else c

/-- Model of `s.startsWith("0x")`, computed on the character list. -/
def hexPrefixed (s : String) : Bool :=
  match s.toList with
  | '0' :: 'x' :: _ => true
  | _ => false

/-- Model of `s.slice(2)` / Lean `String.drop s 2`, computed on the character list. -/
def dropTwo (s : String) : String :=
  String.mk (s.toList.drop 2)

/-- Model of `ethers.zeroPadValue(v, n)`: `v` must be `0x`-prefixed even-length hex of
at most `n` bytes; the result is the `0x`-prefixed lowercase hex of the value
left-padded with zero bytes to exactly `n` bytes. `none` models the throw. -/
def zeroPadValue (v : String) (n : Nat) : Option String :=
  if hexPrefixed v then
    if (dropTwo v).toList.all isHexChar && (dropTwo v).toList.length % 2 == 0 &&
       (dropTwo v).toList.length ≤ 2 * n then
      some ("0x" ++ String.mk (List.replicate (2 * n - (dropTwo v).toList.length) '0' ++
        (dropTwo v).toList.map hexLower))
    else none
  else none

/-- The wallet backend's padding of a credential hash before its registry
calls: `ethers.zeroPadValue("0x" + credentialHash, 32)` with no prefix
normalization. -/
def walletPad (h : String) : Option String :=
  zeroPadValue ("0x" ++ h) 32

/-- Verifier helper `normalizeHash`: `null` on a falsy input, otherwise strip
a leading `0x`. -/
def normalizeHash (h : String) : Option String :=
  if h = "" then none
  else if hexPrefixed h then some (dropTwo h) else some h

/-- Verifier helper `paddedHashBytes32`: normalize, then pad (`"0x" + null`
evaluates to the non-hex string `"0xnull"`, so a falsy input throws). -/
def paddedHashBytes32 (h : String) : Option String :=
  match normalizeHash h with
  | some clean => zeroPadValue ("0x" ++ clean) 32
  | none => zeroPadValue "0xnull" 32

/-- ASCII `toLowerCase`, computed on the character list (identifier strings in
this system are `0x`-prefixed hex addresses). -/
def lowerStr (s : String) : String :=
  String.mk (s.toList.map Char.toLower)

/-! ### Cryptographic primitives and the trust registry, as interfaces -/

/-- The cryptographic primitives the services use, passed explicitly:
`sha256` is the hex digest of a string, `addr` maps a private key to its
public address, `sign` is `wallet.signMessage`, and `recover` is
`ethers.verifyMessage` (`none` models the throw on a malformed signature). -/
structure Crypto where
  sha256 : String → String
  addr : String → String
  sign : String → String → String
  recover : String → String → Option String

/-- The `SSIRegistry` read interface consumed through `contract.js`. -/
structure Registry where
  isIssuerTrusted : String → Bool
  isCredentialIssued : String → Bool
  isCredentialRevoked : String → Bool

/-! ### Wallet data model -/

/-- A stored credential: `storage.credentials[hash] = { ...vc, storedAt }`. -/
structure StoredCred where
  vc : List (String × JsVal)
  credentialHash : String
  issuerPublicKey : String
  issuerSignature : String
  storedAt : String
  deriving Repr

/-- States of the proof-request lifecycle (`status` field). -/
inductive ReqStatus where
  | pending
  | approved
  | rejected
  deriving DecidableEq, Repr

/-- A verifiable presentation as assembled by `/respond`
(`{ ...vpPayload, backendSignature }`). -/
structure VPRecord where
  vp : List (String × JsVal)
  credentialHash : String
  issuerPublicKey : String
  issuerSignature : String
  backendAddress : String
  backendTimestamp : String
  requestId : String
  verifierId : String
  backendSignature : String
  deriving Repr

/-- A proof request record in `storage.requests`. -/
structure ProofRequest where
  id : String
  verifierId : String
  attributes : List String
  issuerPublicKey : Option String
  status : ReqStatus
  createdAt : String
  resolvedAt : Option String
  vp : Option VPRecord
  deriving Repr

/-- The wallet backend's persistent storage (`storage.json`). -/
structure Storage where
  credentials : List (String × StoredCred)
  requests : List (String × ProofRequest)
  deriving Repr

/-! ### Credential selection (`findMatchingCredential`) -/

/-- Whether one stored credential can satisfy every requested attribute
(`over18` and `panLast4` are derived from `dob` and `pan`; anything else must
exist verbatim in the claims). -/
def credSatisfies (cred : StoredCred) (attributes : List String) : Bool :=
  attributes.all fun attr =>
    if attr = "over18" && (alistGet cred.vc "dob").isSome then true
    else if attr = "panLast4" && (alistGet cred.vc "pan").isSome then true
    else (alistGet cred.vc attr).isSome

/-- Function `findMatchingCredential(attributes, issuerFilter)`: scan stored
credentials in insertion order, applying the optional issuer filter, and
return the first that satisfies all requested attributes. -/
def findMatchingCredential (creds : List StoredCred) (attributes : List String)
    (issuerFilter : Option String) : Option StoredCred :=
  creds.find? fun cred =>
    (match issuerFilter with
     | some f => cred.issuerPublicKey = f
     | none => true) &&
    credSatisfies cred attributes

/-! ### Attribute derivation (the loop in `/respond`) -/

/-- Errors raised by the derivation loop: an attribute absent from the claims
(the `400` "cannot be derived" response), or a thrown `TypeError`
(`pan.slice` on a truthy non-string), surfaced as the `500` handler. -/
inductive DeriveErr where
  | unsupported (attr : String)
  | thrown
  deriving DecidableEq, Repr

/-- Model of `vc.vc.pan || ""` followed by `.slice`: a string is used as is, a falsy
value becomes `""`, and a truthy non-string throws. -/
def panSource : Option JsVal → Except DeriveErr String
  | some (.str s) => .ok s
  | some (.bool true) => .error .thrown
  | some (.obj _) => .error .thrown
  | some (.bool false) => .ok ""
  | some .null => .ok ""
  | none => .ok ""

/-- The derivation loop of `/respond`, with the accumulated `derived` object
made explicit. -/
def deriveAux (cl : List (String × JsVal)) (nowMs : Int) :
    List String → List (String × JsVal) → Except DeriveErr (List (String × JsVal))
  | [], acc => .ok acc
  | attr :: rest, acc =>
    if attr = "over18" then
      deriveAux cl nowMs rest
        (alistPut acc "over18" (.bool (ageGE18 (computeAge (alistGet cl "dob") nowMs))))
    else if attr = "panLast4" then
      match panSource (alistGet cl "pan") with
      | .error e => .error e
      | .ok s => deriveAux cl nowMs rest (alistPut acc "panLast4" (.str (sliceLast4 s)))
    else
      match alistGet cl attr with
      | some v => deriveAux cl nowMs rest (alistPut acc attr v)
      | none => .error (.unsupported attr)

/-- Derivation over the requested attributes of a request. -/
def deriveAttrs (cl : List (String × JsVal)) (attrs : List String) (nowMs : Int) :
    Except DeriveErr (List (String × JsVal)) :=
  deriveAux cl nowMs attrs []

/-! ### Presentation payload (`vpPayload`) -/

/-- The relay payload object `/respond` signs, with the key insertion order of
the source literal. -/
def mkVpPayload (derived : List (String × JsVal))
    (credentialHash issuerPublicKey issuerSignature wAddr ts requestId verifierId : String) :
    JsVal :=
  .obj [("vp", .obj derived),
        ("credentialHash", .str credentialHash),
        ("issuerPublicKey", .str issuerPublicKey),
        ("issuerSignature", .str issuerSignature),
        ("backend", .obj [("address", .str wAddr), ("timestamp", .str ts)]),
        ("requestId", .str requestId),
        ("verifierId", .str verifierId)]

/-! ### `/store-credential` -/

/-- JS truthiness of a possibly-absent string field (`!vc.credentialHash`). -/
def truthyS : Option String → Bool
  | some s => s ≠ ""
  | none => false

/-- The raw `vc` object of a `/store-credential` body, before validation. -/
structure VCInput where
  vc : List (String × JsVal)
  credentialHash : Option String
  issuerPublicKey : Option String
  issuerSignature : Option String
  deriving Repr

/-- Outcomes of `/store-credential`, one per `return` site. -/
inductive StoreResult where
  | invalidPayload
  | hashMismatch
  | invalidSigFormat
  | sigMismatch
  | untrusted
  | notIssued
  | revoked
  | internal
  | ok
  deriving DecidableEq, Repr

/-- The `/store-credential` handler: recompute the hash of `vc.vc`, recover
the issuer signature, run the three registry checks, and only then store the
credential keyed by its hash. `none` input models a missing `vc` body. -/
def storeCredential (C : Crypto) (R : Registry) (st : Storage) (inp : Option VCInput)
    (nowIso : String) : Storage × StoreResult :=
  match inp with
  | none => (st, .invalidPayload)
  | some v =>
    if truthyS v.credentialHash && truthyS v.issuerPublicKey && truthyS v.issuerSignature then
      let credentialHash := v.credentialHash.getD ""
      let issuerAddress := v.issuerPublicKey.getD ""
      let issuerSignature := v.issuerSignature.getD ""
      let computedHash := C.sha256 (stringifyVal (.obj v.vc))
      if computedHash = credentialHash then
        match C.recover credentialHash issuerSignature with
        | none => (st, .invalidSigFormat)
        | some recovered =>
          if lowerStr recovered = lowerStr issuerAddress then
            match walletPad credentialHash with
            | none => (st, .internal)
            | some padded =>
              if R.isIssuerTrusted issuerAddress then
                if R.isCredentialIssued padded then
                  if R.isCredentialRevoked padded then (st, .revoked)
                  else
                    (⟨alistPut st.credentials credentialHash
                        { vc := v.vc, credentialHash := credentialHash,
                          issuerPublicKey := issuerAddress,
                          issuerSignature := issuerSignature, storedAt := nowIso },
                      st.requests⟩, .ok)
                else (st, .notIssued)
              else (st, .untrusted)
          else (st, .sigMismatch)
      else (st, .hashMismatch)
    else (st, .invalidPayload)

/-! ### `/respond` -/

/-- Outcomes of `/respond`, one per `return` site. -/
inductive RespondResult where
  | badInput
  | notFound
  | alreadyHandled (status : ReqStatus)
  | rejectedOk
  | noCredential
  | untrusted
  | notIssued
  | revoked
  | cannotDerive (attr : String)
  | internal
  | okVp (v : VPRecord)
  deriving Repr

/-- Result of the synchronous part of `/respond`, up to the first `await` on
the registry: either an early return, or the data captured before the
blocking registry calls (the request record, the selected credential and the
padded hash). -/
inductive P1Out where
  | done (st : Storage) (resp : RespondResult)
  | cont (r : ProofRequest) (vc : StoredCred) (padded : String)
  deriving Repr

/-- Handler `/respond` before its first `await`: argument check, request lookup,
status check, the unconditional reject path, credential auto-selection and
hash padding. No mutation except on the reject path. -/
def respondP1 (st : Storage) (requestId : String) (approve : Bool) (nowIso : String) : P1Out :=
  if requestId = "" then .done st .badInput
  else
    match alistGet st.requests requestId with
    | none => .done st .notFound
    | some r =>
      if r.status = .pending then
        if approve then
          match findMatchingCredential (st.credentials.map (·.2)) r.attributes r.issuerPublicKey with
          | none => .done st .noCredential
          | some vc =>
            match walletPad vc.credentialHash with
            | none => .done st .internal
            | some padded => .cont r vc padded
        else
          .done ⟨st.credentials,
                 alistPut st.requests requestId
                   { r with status := .rejected, resolvedAt := some nowIso }⟩ .rejectedOk
      else .done st (.alreadyHandled r.status)

/-- Handler `/respond` from its first `await` on: the three registry checks, attribute
derivation, payload signing and the commit of the `approved` transition. `r`
is the request object captured before the awaits; the commit re-reads the
live record (the JS code mutates the object still referenced by the map). -/
def respondP2 (C : Crypto) (R : Registry) (wAddr wKey : String) (st : Storage)
    (requestId : String) (r : ProofRequest) (vc : StoredCred) (padded : String)
    (nowIso : String) (nowMs : Int) : Storage × RespondResult :=
  if R.isIssuerTrusted vc.issuerPublicKey then
    if R.isCredentialIssued padded then
      if R.isCredentialRevoked padded then (st, .revoked)
      else
        match deriveAttrs vc.vc r.attributes nowMs with
        | .error (.unsupported attr) => (st, .cannotDerive attr)
        | .error .thrown => (st, .internal)
        | .ok derived =>
          let cur := (alistGet st.requests requestId).getD r
          let payload := mkVpPayload derived vc.credentialHash vc.issuerPublicKey
            vc.issuerSignature wAddr nowIso requestId cur.verifierId
          let sig := C.sign wKey (stringifyVal payload)
          let v : VPRecord :=
            { vp := derived, credentialHash := vc.credentialHash,
              issuerPublicKey := vc.issuerPublicKey,
              issuerSignature := vc.issuerSignature, backendAddress := wAddr,
              backendTimestamp := nowIso, requestId := requestId,
              verifierId := cur.verifierId, backendSignature := sig }
          (⟨st.credentials,
            alistPut st.requests requestId
              { cur with status := .approved, resolvedAt := some nowIso, vp := some v }⟩,
           .okVp v)
    else (st, .notIssued)
  else (st, .untrusted)

/-- The `/respond` handler: the synchronous prefix followed immediately by the
post-await phase (the sequential, uninterleaved execution). -/
def respond (C : Crypto) (R : Registry) (wAddr wKey : String) (st : Storage)
    (requestId : String) (approve : Bool) (nowIso : String) (nowMs : Int) :
    Storage × RespondResult :=
  match respondP1 st requestId approve nowIso with
  | .done st' resp => (st', resp)
  | .cont r vc padded => respondP2 C R wAddr wKey st requestId r vc padded nowIso nowMs

/-! ### `/verify-vp` (verifier service) -/

/-- The parsed body of a `/verify-vp` call: the fields the code destructures,
each possibly absent. String-valued fields are typed as strings; `vp`,
`backend`, `requestId` and `verifierId` pass through as raw JSON. -/
structure VPInput where
  vp : Option JsVal
  credentialHash : Option String
  issuerPublicKey : Option String
  issuerSignature : Option String
  backend : Option JsVal
  backendSignature : Option String
  requestId : Option JsVal
  verifierId : Option JsVal
  deriving Repr

/-- JS truthiness of a JSON value. -/
def jsTruthy : JsVal → Bool
  | .str s => s ≠ ""
  | .bool b => b
  | .null => false
  | .obj _ => true

/-- JS truthiness of a possibly-absent JSON value. -/
def truthyJ : Option JsVal → Bool
  | some v => jsTruthy v
  | none => false

/-- A field of an object literal whose value may be `undefined`:
`JSON.stringify` omits the key entirely in that case. -/
def optField (k : String) : Option JsVal → List (String × JsVal)
  | some v => [(k, v)]
  | none => []

/-- The verifier's reconstruction of the relay payload from the received VP
fields, with the key order of the source literal. -/
def reconstructPayload (p : VPInput) : JsVal :=
  .obj (optField "vp" p.vp ++
        optField "credentialHash" (p.credentialHash.map .str) ++
        optField "issuerPublicKey" (p.issuerPublicKey.map .str) ++
        optField "issuerSignature" (p.issuerSignature.map .str) ++
        optField "backend" p.backend ++
        optField "requestId" p.requestId ++
        optField "verifierId" p.verifierId)

/-- Access of `backend.address` where it is compared with `.toLowerCase()`: `none` when
the access or the method call would throw (no address string present). -/
def getBackendAddress : Option JsVal → Option String
  | some (.obj fs) =>
    match alistGet fs "address" with
    | some (.str s) => some s
    | _ => none
  | _ => none

/-- Outcomes of `/verify-vp`, one per `return` site. -/
inductive VerifyResult where
  | missingVp
  | malformed
  | invalidBackendSigFormat
  | relayMismatch
  | invalidIssuerSigFormat
  | issuerMismatch
  | untrusted
  | notIssued
  | revoked
  | internal
  | ok (backendAddress issuerAddress : String) (isTrusted issued revoked : Bool)
      (derived : Option JsVal)
  deriving Repr

/-- The `/verify-vp` handler: structural check, relay-signature recovery over
the reconstructed payload, issuer-signature recovery over the credential
hash, then the three registry checks; pure in the storage. -/
def verifyVp (C : Crypto) (R : Registry) (inp : Option VPInput) : VerifyResult :=
  match inp with
  | none => .missingVp
  | some p =>
    if truthyS p.credentialHash && truthyS p.issuerPublicKey &&
       truthyS p.issuerSignature && truthyJ p.backend && truthyS p.backendSignature then
      let credentialHash := p.credentialHash.getD ""
      let issuerPublicKey := p.issuerPublicKey.getD ""
      let issuerSignature := p.issuerSignature.getD ""
      let backendSignature := p.backendSignature.getD ""
      let vpString := stringifyVal (reconstructPayload p)
      match C.recover vpString backendSignature with
      | none => .invalidBackendSigFormat
      | some recB =>
        match getBackendAddress p.backend with
        | none => .internal
        | some a =>
          if lowerStr recB = lowerStr a then
            match C.recover credentialHash issuerSignature with
            | none => .invalidIssuerSigFormat
            | some recI =>
              if lowerStr recI = lowerStr issuerPublicKey then
                match paddedHashBytes32 credentialHash with
                | none => .internal
                | some padded =>
                  if R.isIssuerTrusted issuerPublicKey then
                    if R.isCredentialIssued padded then
                      if R.isCredentialRevoked padded then .revoked
                      else .ok recB recI true true false p.vp
                    else .notIssued
                  else .untrusted
              else .issuerMismatch
          else .relayMismatch
    else .malformed

/-- The verifier's parse of the JSON body a wallet-produced VP serializes to
(faithful transport: every field arrives present, with its value). -/
def transportVP (v : VPRecord) : VPInput :=
  { vp := some (.obj v.vp),
    credentialHash := some v.credentialHash,
    issuerPublicKey := some v.issuerPublicKey,
    issuerSignature := some v.issuerSignature,
    backend := some (.obj [("address", .str v.backendAddress),
                           ("timestamp", .str v.backendTimestamp)]),
    backendSignature := some v.backendSignature,
    requestId := some (.str v.requestId),
    verifierId := some (.str v.verifierId) }

/-! ### The spec's calendar age (for comparison with `computeAge`) -/

/-- The age rule as the spec words it: calendar years between the birth date
and the current date, decremented by one if the current month/day precedes
the birth month/day. -/
def specCalendarAge (y0 m0 d0 y1 m1 d1 : Int) : Int :=
  (y1 - y0) - (if m1 < m0 ∨ (m1 = m0 ∧ d1 < d0) then 1 else 0)

/-! ### Concrete instances for evaluating the model -/

/-- A concrete instantiation of the cryptographic interface in which an
address is its own private key, a signature is the signer's key and recovery
returns the signature: it satisfies the recovery law
`recover m (sign sk m) = some (addr sk)` definitionally. -/
def trivialCrypto : Crypto :=
  { sha256 := fun s => s,
    addr := fun k => k,
    sign := fun k _ => k,
    recover := fun _ sig => some sig }

/-- A variant of `trivialCrypto` whose digests are the fixed hex string
`"aa"`, so that registry padding succeeds on them. -/
def hexCrypto : Crypto :=
  { sha256 := fun _ => "aa",
    addr := fun k => k,
    sign := fun k _ => k,
    recover := fun _ sig => some sig }

/-- A registry in which every issuer is trusted, every hash issued, nothing
revoked. -/
def allGoodRegistry : Registry :=
  { isIssuerTrusted := fun _ => true,
    isCredentialIssued := fun _ => true,
    isCredentialRevoked := fun _ => false }

/-- A registry in which every issuer is trusted, every hash issued, and every
hash revoked. -/
def revokedRegistry : Registry :=
  { isIssuerTrusted := fun _ => true,
    isCredentialIssued := fun _ => true,
    isCredentialRevoked := fun _ => true }

/-- A stored credential used to exercise the model. -/
def sampleCred : StoredCred :=
  { vc := [("name", .str "John Doe"), ("dob", .str "2000-01-01"), ("pan", .str "ABCDE1234F")],
    credentialHash := "aa", issuerPublicKey := "issuer1", issuerSignature := "sig1",
    storedAt := "t0" }

/-- A pending proof request used to exercise the model. -/
def sampleReq : ProofRequest :=
  { id := "r1", verifierId := "bank", attributes := ["name"], issuerPublicKey := none,
    status := .pending, createdAt := "t0", resolvedAt := none, vp := none }

/-- A wallet storage holding `sampleCred` and the pending `sampleReq`. -/
def sampleSt : Storage :=
  ⟨[("aa", sampleCred)], [("r1", sampleReq)]⟩

/-! ### Helper lemmas -/

theorem stringMk_toList (s : String) : String.mk s.toList = s := by
  cases s; rfl

theorem alistGet_put_self {α : Type} (l : List (String × α)) (k : String) (v : α) :
    alistGet (alistPut l k v) k = some v := by
  induction l with
  | nil => simp [alistPut, alistGet]
  | cons hd tl ih =>
    obtain ⟨k', v'⟩ := hd
    by_cases h : k' = k <;> simp [alistPut, alistGet, h, ih]

theorem alistPut_idem {α : Type} (l : List (String × α)) (k : String) (v w : α) :
    alistPut (alistPut l k v) k w = alistPut l k w := by
  induction l with
  | nil => simp [alistPut]
  | cons hd tl ih =>
    obtain ⟨k', v'⟩ := hd
    by_cases h : k' = k <;> simp [alistPut, h, ih]

theorem stringMk_append (a b : List Char) :
    String.mk a ++ String.mk b = String.mk (a ++ b) := rfl

theorem toList_mk (l : List Char) : (String.mk l).toList = l := rfl

/-! ## Claim theorems -/

/-- Claim C1 (code bug). The claim states that `over18` equals the
calendar-aware age comparison `age >= 18` for every `YYYY-MM-DD` date of
birth. The code instead maps the elapsed milliseconds onto the 1970 epoch
calendar (`new Date(diff).getUTCFullYear() - 1970`), which overshoots the
calendar age by one on dates whose elapsed interval contains more leap days
than the matching epoch window: for `dob = "2000-01-01"` evaluated on
2017-12-31 the code derives `over18 = true` (epoch-trick age 18) although the
calendar age demanded by the claim is 17 (the 18th birthday is 2018-01-01).
The claim's own boundary examples for `dob = "2000-06-15"` do hold. -/
theorem computeAge_epoch_shift_overshoots_calendar_age :
    deriveAttrs [("dob", .str "2000-01-01")] ["over18"] (86400000 * daysFromCivil 2017 12 31)
      = .ok [("over18", .bool true)]
    ∧ computeAge (some (.str "2000-01-01")) (86400000 * daysFromCivil 2017 12 31) = .num 18
    ∧ specCalendarAge 2000 1 1 2017 12 31 = 17
    ∧ computeAge (some (.str "2000-06-15")) (86400000 * daysFromCivil 2018 6 14) = .num 17
    ∧ computeAge (some (.str "2000-06-15")) (86400000 * daysFromCivil 2018 6 15) = .num 18 :=
  ⟨rfl, by decide, by decide, by decide, by decide⟩

/-- Claim C7 (confirmed): the `panLast4` derivation takes the last 4
characters of the source claim string (`pan.slice(-4)`), returns the whole
string unpadded when it is shorter than 4 characters, maps `"ABCDE1234F"` to
`"234F"` and `"AB"` to `"AB"`, and the derivation loop records exactly this
value without error. -/
theorem panLast4_slice_semantics :
    sliceLast4 "ABCDE1234F" = "234F" ∧ sliceLast4 "AB" = "AB"
    ∧ (∀ s : String, s.toList.length < 4 → sliceLast4 s = s)
    ∧ (∀ s : String, ∃ t : String, s = t ++ sliceLast4 s ∧
        (sliceLast4 s).toList.length = min 4 s.toList.length)
    ∧ (∀ (cl acc : List (String × JsVal)) (rest : List String) (nowMs : Int) (s : String),
        alistGet cl "pan" = some (.str s) →
        deriveAux cl nowMs ("panLast4" :: rest) acc
          = deriveAux cl nowMs rest (alistPut acc "panLast4" (.str (sliceLast4 s)))) := by
  refine ⟨by decide, by decide, ?_, ?_, ?_⟩
  · intro s h
    have h0 : s.toList.length - 4 = 0 := by omega
    simp only [sliceLast4, h0, List.drop_zero, stringMk_toList]
  · intro s
    refine ⟨String.mk (s.toList.take (s.toList.length - 4)), ?_, ?_⟩
    · conv_lhs => rw [← stringMk_toList s, ← List.take_append_drop (s.toList.length - 4) s.toList]
      exact (stringMk_append _ _).symm
    · simp only [sliceLast4, toList_mk, List.length_drop]
      omega
  · intro cl acc rest nowMs s h
    simp [deriveAux, h, panSource]

/-- Witness for C7: the short-string branch at the concrete input `"AB"`. -/
theorem panLast4_slice_semantics_witness :
    ("AB" : String).toList.length < 4 ∧ sliceLast4 "AB" = "AB" :=
  ⟨by decide, panLast4_slice_semantics.2.2.1 "AB" (by decide)⟩

/-- Claim C9 (confirmed): when the selected credential's `dob` claim is
present but not parseable as a date (or not a string at all, so that
`computeAge` yields `NaN` or `null`), the derivation loop raises no error: it
records `over18 = false` (`NaN >= 18` and `null >= 18` are both false in JS)
and continues with the remaining attributes, so presentation construction
proceeds. -/
theorem over18_unparseable_dob_silently_false :
    ∀ (cl acc : List (String × JsVal)) (rest : List String) (nowMs : Int) (v : JsVal),
      alistGet cl "dob" = some v →
      (computeAge (some v) nowMs = .nan ∨ computeAge (some v) nowMs = .null) →
      deriveAux cl nowMs ("over18" :: rest) acc
        = deriveAux cl nowMs rest (alistPut acc "over18" (.bool false))
      ∧ deriveAttrs cl ["over18"] nowMs = .ok [("over18", .bool false)] := by
  intro cl acc rest nowMs v hget hc
  have hfalse : ageGE18 (computeAge (alistGet cl "dob") nowMs) = false := by
    rw [hget]
    rcases hc with h | h <;> rw [h] <;> rfl
  constructor
  · simp [deriveAux, hfalse]
  · simp [deriveAttrs, deriveAux, hfalse, alistPut]

/-- Witness for C9: a `dob` claim holding the unparseable string
`"hello world"`. -/
theorem over18_unparseable_dob_silently_false_witness :
    computeAge (some (.str "hello world")) 0 = .nan
    ∧ deriveAttrs [("dob", .str "hello world")] ["over18"] 0 = .ok [("over18", .bool false)] :=
  ⟨by decide,
   (over18_unparseable_dob_silently_false [("dob", .str "hello world")] [] [] 0
     (.str "hello world") rfl (Or.inl (by decide))).2⟩

/-- Anything `zeroPadValue v 32` returns is a `0x`-prefixed 66-character
(32-byte) hex string. -/
theorem zeroPadValue32_shape (v p : String) (h : zeroPadValue v 32 = some p) :
    p.toList.length = 66 ∧ hexPrefixed p = true := by
  unfold zeroPadValue at h
  split at h
  · split at h
    · rename_i hcond
      have hlen : (dropTwo v).toList.length ≤ 64 := by
        simp only [Bool.and_eq_true, beq_iff_eq, decide_eq_true_eq] at hcond
        exact hcond.2
      rw [Option.some_inj] at h
      subst h
      constructor
      · show ('0' :: 'x' ::
          (List.replicate (2 * 32 - (dropTwo v).toList.length) '0' ++
            (dropTwo v).toList.map hexLower)).length = 66
        simp only [List.length_cons, List.length_append, List.length_replicate,
          List.length_map]
        omega
      · rfl
    · simp at h
  · simp at h

/-- Claim C8 counterexample: the claim prescribes, for holder and verifier
alike, normalizing away any `0x`-style prefix before left-zero-padding. The
holder's padding (`ethers.zeroPadValue("0x" + credentialHash, 32)`) performs
no normalization: on the prefixed digest `"0xab"` it throws, while the
prescribed normalize-then-pad transformation (the verifier's
`paddedHashBytes32`) succeeds. -/
theorem walletPad_skips_normalizing_counterexample :
    walletPad "0xab" = none
    ∧ paddedHashBytes32 "0xab"
        = some "0x00000000000000000000000000000000000000000000000000000000000000ab"
    ∧ walletPad "0xab" ≠ paddedHashBytes32 "0xab" := by decide

/-- Claim C8 as amended: every hash a registry call receives is a fixed
32-byte (66-character, `0x`-prefixed) left-zero-padded value; the verifier
normalizes away a `0x` prefix before padding, while the holder prepends `0x`
directly without normalization — which agrees with the verifier's
transformation on the prefix-free digests the holder handles. The padded
value the holder's `/respond` later passes to the registry is exactly its
`zeroPadValue("0x" + credentialHash, 32)`. -/
theorem registry_hash_padding_amended :
    (∀ h : String, h ≠ "" → hexPrefixed h = false → walletPad h = paddedHashBytes32 h)
    ∧ (∀ h : String, hexPrefixed h = true → paddedHashBytes32 h = walletPad (dropTwo h))
    ∧ (∀ hsh p : String, paddedHashBytes32 hsh = some p ∨ walletPad hsh = some p →
        p.toList.length = 66 ∧ hexPrefixed p = true)
    ∧ (∀ (st : Storage) (id now : String) (r : ProofRequest) (vc : StoredCred) (p : String),
        respondP1 st id true now = .cont r vc p → walletPad vc.credentialHash = some p) := by
  refine ⟨?_, ?_, ?_, ?_⟩
  · intro h hne hpre
    unfold paddedHashBytes32 normalizeHash
    rw [if_neg hne, if_neg (by simp [hpre])]
    rfl
  · intro h hpre
    have hne : h ≠ "" := by
      intro he
      subst he
      exact absurd hpre (by decide)
    unfold paddedHashBytes32 normalizeHash
    rw [if_neg hne, if_pos (by simp [hpre])]
    rfl
  · intro hsh p hor
    rcases hor with h | h
    · unfold paddedHashBytes32 at h
      rcases hn : normalizeHash hsh with _ | clean <;> rw [hn] at h
      · exact zeroPadValue32_shape _ _ h
      · exact zeroPadValue32_shape _ _ h
    · exact zeroPadValue32_shape _ _ h
  · intro st id now r vc p h
    unfold respondP1 at h
    split at h
    · exact P1Out.noConfusion h
    · split at h
      · exact P1Out.noConfusion h
      · rename_i r' heq
        split at h
        · split at h
          · split at h
            · exact P1Out.noConfusion h
            · rename_i vc' hfind
              split at h
              · exact P1Out.noConfusion h
              · rename_i p' hpad
                injection h with h1 h2 h3
                subst h1
                subst h2
                subst h3
                exact hpad
          · exact P1Out.noConfusion h
        · exact P1Out.noConfusion h

/-- Witness for C8's amended theorem: the prefix-free digest `"aa"`, on which
the holder's and the verifier's padding agree. -/
theorem registry_hash_padding_amended_witness :
    (("aa" : String) ≠ "" ∧ hexPrefixed "aa" = false)
    ∧ walletPad "aa" = paddedHashBytes32 "aa" :=
  ⟨⟨by decide, by decide⟩, registry_hash_padding_amended.1 "aa" (by decide) (by decide)⟩

/-- Claim C4 (confirmed): `/store-credential` runs hash recomputation,
issuer-signature recovery (compared case-insensitively to the supplied issuer
id), issuer trust, issuance and revocation in this order, returning the
error of the first failing step with the store untouched; only when all five
pass does it insert the credential, keyed by the content hash; re-inserting
the identical credential (at the same clock reading) is idempotent. -/
theorem storeCredential_pipeline (C : Crypto) (R : Registry) (st : Storage)
    (cl : List (String × JsVal)) (chash iaddr isig now : String)
    (h1 : chash ≠ "") (h2 : iaddr ≠ "") (h3 : isig ≠ "") :
    (C.sha256 (stringifyVal (.obj cl)) ≠ chash →
      storeCredential C R st (some ⟨cl, some chash, some iaddr, some isig⟩) now
        = (st, .hashMismatch))
    ∧ (C.sha256 (stringifyVal (.obj cl)) = chash →
        C.recover chash isig = none →
        storeCredential C R st (some ⟨cl, some chash, some iaddr, some isig⟩) now
          = (st, .invalidSigFormat))
    ∧ (∀ rec : String, C.sha256 (stringifyVal (.obj cl)) = chash →
        C.recover chash isig = some rec →
        lowerStr rec ≠ lowerStr iaddr →
        storeCredential C R st (some ⟨cl, some chash, some iaddr, some isig⟩) now
          = (st, .sigMismatch))
    ∧ (∀ (rec padded : String), C.sha256 (stringifyVal (.obj cl)) = chash →
        C.recover chash isig = some rec →
        lowerStr rec = lowerStr iaddr →
        walletPad chash = some padded →
        R.isIssuerTrusted iaddr = false →
        storeCredential C R st (some ⟨cl, some chash, some iaddr, some isig⟩) now
          = (st, .untrusted))
    ∧ (∀ (rec padded : String), C.sha256 (stringifyVal (.obj cl)) = chash →
        C.recover chash isig = some rec →
        lowerStr rec = lowerStr iaddr →
        walletPad chash = some padded →
        R.isIssuerTrusted iaddr = true →
        R.isCredentialIssued padded = false →
        storeCredential C R st (some ⟨cl, some chash, some iaddr, some isig⟩) now
          = (st, .notIssued))
    ∧ (∀ (rec padded : String), C.sha256 (stringifyVal (.obj cl)) = chash →
        C.recover chash isig = some rec →
        lowerStr rec = lowerStr iaddr →
        walletPad chash = some padded →
        R.isIssuerTrusted iaddr = true →
        R.isCredentialIssued padded = true →
        R.isCredentialRevoked padded = true →
        storeCredential C R st (some ⟨cl, some chash, some iaddr, some isig⟩) now
          = (st, .revoked))
    ∧ (∀ (rec padded : String), C.sha256 (stringifyVal (.obj cl)) = chash →
        C.recover chash isig = some rec →
        lowerStr rec = lowerStr iaddr →
        walletPad chash = some padded →
        R.isIssuerTrusted iaddr = true →
        R.isCredentialIssued padded = true →
        R.isCredentialRevoked padded = false →
        storeCredential C R st (some ⟨cl, some chash, some iaddr, some isig⟩) now
          = (⟨alistPut st.credentials chash ⟨cl, chash, iaddr, isig, now⟩, st.requests⟩, .ok)
        ∧ storeCredential C R
            (⟨alistPut st.credentials chash ⟨cl, chash, iaddr, isig, now⟩, st.requests⟩ : Storage)
            (some ⟨cl, some chash, some iaddr, some isig⟩) now
          = (⟨alistPut st.credentials chash ⟨cl, chash, iaddr, isig, now⟩, st.requests⟩, .ok)) := by
  have hcond : (truthyS (some chash) && truthyS (some iaddr) && truthyS (some isig)) = true := by
    simp [truthyS, h1, h2, h3]
  refine ⟨?_, ?_, ?_, ?_, ?_, ?_, ?_⟩
  · intro hh
    simp [storeCredential, hcond, hh]
  · intro hh hr
    simp [storeCredential, hcond, hh, hr]
  · intro rec hh hr hl
    simp [storeCredential, hcond, hh, hr, hl]
  · intro rec padded hh hr hl hp ht
    simp [storeCredential, hcond, hh, hr, hl, hp, ht]
  · intro rec padded hh hr hl hp ht hi
    simp [storeCredential, hcond, hh, hr, hl, hp, ht, hi]
  · intro rec padded hh hr hl hp ht hi hv
    simp [storeCredential, hcond, hh, hr, hl, hp, ht, hi, hv]
  · intro rec padded hh hr hl hp ht hi hv
    constructor
    · simp [storeCredential, hcond, hh, hr, hl, hp, ht, hi, hv]
    · simp [storeCredential, hcond, hh, hr, hl, hp, ht, hi, hv, alistPut_idem]

/-- Witness for C4: a concrete credential rejected at the revocation step
(under `trivialCrypto` the recomputed hash and recovered signer match by
construction), leaving the store unchanged; and the same credential accepted
then idempotently re-accepted under the all-good registry. -/
theorem storeCredential_pipeline_witness :
    storeCredential hexCrypto revokedRegistry sampleSt
      (some ⟨[("name", .str "John Doe")], some "aa", some "ia", some "ia"⟩) "t1"
      = (sampleSt, .revoked) := by
  have h := (storeCredential_pipeline hexCrypto revokedRegistry sampleSt
    [("name", .str "John Doe")] "aa" "ia" "ia" "t1"
    (by decide) (by decide) (by decide)).2.2.2.2.2.1
  exact h "ia"
    "0x00000000000000000000000000000000000000000000000000000000000000aa"
    rfl rfl rfl (by decide) rfl rfl rfl

/-! ### Inversion and frame lemmas for `/respond` -/

theorem respondP1_true_done (st : Storage) (id now : String) (st' : Storage)
    (resp : RespondResult) (h : respondP1 st id true now = .done st' resp) : st' = st := by
  unfold respondP1 at h
  split at h
  · exact (P1Out.done.injEq _ _ _ _).mp h |>.1.symm
  · split at h
    · exact (P1Out.done.injEq _ _ _ _).mp h |>.1.symm
    · split at h
      · split at h
        · split at h
          · exact (P1Out.done.injEq _ _ _ _).mp h |>.1.symm
          · split at h
            · exact (P1Out.done.injEq _ _ _ _).mp h |>.1.symm
            · exact P1Out.noConfusion h
        · rename_i happ
          exact absurd rfl happ
      · exact (P1Out.done.injEq _ _ _ _).mp h |>.1.symm

theorem respondP2_frame (C : Crypto) (R : Registry) (wA wK : String) (st : Storage)
    (id : String) (r : ProofRequest) (vc : StoredCred) (padded now : String) (ms : Int)
    (st' : Storage) (resp : RespondResult)
    (h : respondP2 C R wA wK st id r vc padded now ms = (st', resp))
    (hne : ∀ v : VPRecord, resp ≠ .okVp v) : st' = st := by
  unfold respondP2 at h
  split at h
  · split at h
    · split at h
      · exact (congrArg Prod.fst h).symm
      · split at h
        · exact (congrArg Prod.fst h).symm
        · exact (congrArg Prod.fst h).symm
        · exact absurd (congrArg Prod.snd h).symm (hne _)
    · exact (congrArg Prod.fst h).symm
  · exact (congrArg Prod.fst h).symm

theorem respondP2_no_rejected (C : Crypto) (R : Registry) (wA wK : String) (st : Storage)
    (id : String) (r : ProofRequest) (vc : StoredCred) (padded now : String) (ms : Int)
    (st' : Storage) (h : respondP2 C R wA wK st id r vc padded now ms = (st', .rejectedOk)) :
    False := by
  unfold respondP2 at h
  split at h
  · split at h
    · split at h
      · exact RespondResult.noConfusion (congrArg Prod.snd h)
      · split at h
        · exact RespondResult.noConfusion (congrArg Prod.snd h)
        · exact RespondResult.noConfusion (congrArg Prod.snd h)
        · exact RespondResult.noConfusion (congrArg Prod.snd h)
    · exact RespondResult.noConfusion (congrArg Prod.snd h)
  · exact RespondResult.noConfusion (congrArg Prod.snd h)

theorem respondP1_rejected_inv (st : Storage) (id : String) (approve : Bool) (now : String)
    (st' : Storage) (h : respondP1 st id approve now = .done st' .rejectedOk) :
    id ≠ "" ∧ approve = false ∧ ∃ r : ProofRequest,
      alistGet st.requests id = some r ∧ r.status = .pending ∧
      st' = ⟨st.credentials,
             alistPut st.requests id { r with status := .rejected, resolvedAt := some now }⟩ := by
  unfold respondP1 at h
  split at h
  · exact absurd ((P1Out.done.injEq _ _ _ _).mp h).2 (by simp)
  · rename_i hid
    split at h
    · exact absurd ((P1Out.done.injEq _ _ _ _).mp h).2 (by simp)
    · rename_i r heq
      split at h
      · rename_i hst
        split at h
        · rename_i happ
          split at h
          · exact absurd ((P1Out.done.injEq _ _ _ _).mp h).2 (by simp)
          · split at h
            · exact absurd ((P1Out.done.injEq _ _ _ _).mp h).2 (by simp)
            · exact P1Out.noConfusion h
        · rename_i happ
          obtain ⟨hs, -⟩ := (P1Out.done.injEq _ _ _ _).mp h
          exact ⟨hid, by simpa using happ, r, heq, hst, hs.symm⟩
      · exact absurd ((P1Out.done.injEq _ _ _ _).mp h).2 (by simp)

theorem respond_rejected_inv (C : Crypto) (R : Registry) (wA wK : String) (st : Storage)
    (id : String) (approve : Bool) (now : String) (ms : Int) (st' : Storage)
    (h : respond C R wA wK st id approve now ms = (st', .rejectedOk)) :
    id ≠ "" ∧ approve = false ∧ ∃ r : ProofRequest,
      alistGet st.requests id = some r ∧ r.status = .pending ∧
      st' = ⟨st.credentials,
             alistPut st.requests id { r with status := .rejected, resolvedAt := some now }⟩ := by
  unfold respond at h
  split at h
  · rename_i st2 r2 heq
    obtain ⟨h1, h2⟩ := Prod.mk.injEq _ _ _ _ ▸ h
    subst h1
    subst h2
    exact respondP1_rejected_inv st id approve now _ heq
  · exact absurd h (fun hh => respondP2_no_rejected _ _ _ _ _ _ _ _ _ _ _ _ hh)

theorem respondP1_done_not_okVp (st : Storage) (id : String) (approve : Bool) (now : String)
    (st' : Storage) (resp : RespondResult) (h : respondP1 st id approve now = .done st' resp)
    (v : VPRecord) : resp ≠ .okVp v := by
  intro hv
  subst hv
  unfold respondP1 at h
  split at h
  · exact absurd ((P1Out.done.injEq _ _ _ _).mp h).2 (by simp)
  · split at h
    · exact absurd ((P1Out.done.injEq _ _ _ _).mp h).2 (by simp)
    · split at h
      · split at h
        · split at h
          · exact absurd ((P1Out.done.injEq _ _ _ _).mp h).2 (by simp)
          · split at h
            · exact absurd ((P1Out.done.injEq _ _ _ _).mp h).2 (by simp)
            · exact P1Out.noConfusion h
        · exact absurd ((P1Out.done.injEq _ _ _ _).mp h).2 (by simp)
      · exact absurd ((P1Out.done.injEq _ _ _ _).mp h).2 (by simp)

theorem respond_nonpending (C : Crypto) (R : Registry) (wA wK : String) (st : Storage)
    (id : String) (approve : Bool) (now : String) (ms : Int) (r : ProofRequest)
    (hid : id ≠ "") (hget : alistGet st.requests id = some r) (hst : r.status ≠ .pending) :
    respond C R wA wK st id approve now ms = (st, .alreadyHandled r.status) := by
  simp [respond, respondP1, hid, hget, hst]

theorem respondP1_okCont_inv (st : Storage) (id : String) (approve : Bool) (now : String)
    (r : ProofRequest) (vc : StoredCred) (padded : String)
    (h : respondP1 st id approve now = .cont r vc padded) :
    id ≠ "" ∧ approve = true ∧ alistGet st.requests id = some r ∧ r.status = .pending ∧
      findMatchingCredential (st.credentials.map (·.2)) r.attributes r.issuerPublicKey = some vc ∧
      walletPad vc.credentialHash = some padded := by
  unfold respondP1 at h
  split at h
  · exact P1Out.noConfusion h
  · rename_i hid
    split at h
    · exact P1Out.noConfusion h
    · rename_i r' heq
      split at h
      · rename_i hst
        split at h
        · rename_i happ
          split at h
          · exact P1Out.noConfusion h
          · rename_i vc' hfind
            split at h
            · exact P1Out.noConfusion h
            · rename_i p' hpad
              obtain ⟨hr, hv, hp⟩ := (P1Out.cont.injEq _ _ _ _ _ _).mp h
              subst hr
              subst hv
              subst hp
              exact ⟨hid, by simpa using happ, heq, hst, hfind, hpad⟩
        · exact P1Out.noConfusion h
      · exact P1Out.noConfusion h

theorem respond_okVp_inv (C : Crypto) (R : Registry) (wA wK : String) (st : Storage)
    (id : String) (approve : Bool) (now : String) (ms : Int) (st' : Storage) (v : VPRecord)
    (h : respond C R wA wK st id approve now ms = (st', .okVp v)) :
    id ≠ "" ∧ approve = true ∧ ∃ (r : ProofRequest) (vc : StoredCred)
      (padded : String) (derived : List (String × JsVal)),
      alistGet st.requests id = some r ∧ r.status = .pending ∧
      findMatchingCredential (st.credentials.map (·.2)) r.attributes r.issuerPublicKey = some vc ∧
      walletPad vc.credentialHash = some padded ∧
      R.isIssuerTrusted vc.issuerPublicKey = true ∧
      R.isCredentialIssued padded = true ∧
      R.isCredentialRevoked padded = false ∧
      deriveAttrs vc.vc r.attributes ms = .ok derived ∧
      v = { vp := derived, credentialHash := vc.credentialHash,
            issuerPublicKey := vc.issuerPublicKey, issuerSignature := vc.issuerSignature,
            backendAddress := wA, backendTimestamp := now, requestId := id,
            verifierId := r.verifierId,
            backendSignature := C.sign wK (stringifyVal (mkVpPayload derived vc.credentialHash
              vc.issuerPublicKey vc.issuerSignature wA now id r.verifierId)) } ∧
      st' = ⟨st.credentials,
             alistPut st.requests id
               { r with status := .approved, resolvedAt := some now, vp := some v }⟩ := by
  unfold respond at h
  split at h
  · rename_i st2 r2 heq
    obtain ⟨h1, h2⟩ := Prod.mk.injEq _ _ _ _ ▸ h
    exact absurd h2 (respondP1_done_not_okVp st id approve now st2 r2 heq v)
  · rename_i r vc padded heq
    obtain ⟨hid, happ, hget, hst, hfind, hpad⟩ := respondP1_okCont_inv st id approve now r vc padded heq
    unfold respondP2 at h
    rw [hget] at h
    simp only [Option.getD_some] at h
    split at h
    · rename_i ht
      split at h
      · rename_i hi
        split at h
        · exact RespondResult.noConfusion (congrArg Prod.snd h)
        · rename_i hv
          split at h
          · exact RespondResult.noConfusion (congrArg Prod.snd h)
          · exact RespondResult.noConfusion (congrArg Prod.snd h)
          · rename_i derived hder
            obtain ⟨h1, h2⟩ := Prod.mk.injEq _ _ _ _ ▸ h
            have hvv : _ = v := (RespondResult.okVp.injEq _ _).mp h2
            refine ⟨hid, happ, r, vc, padded, derived, hget, hst, hfind, hpad, ht, hi,
              (Bool.not_eq_true _).mp hv, hder, hvv.symm, ?_⟩
            rw [← h1, ← hvv]
      · exact RespondResult.noConfusion (congrArg Prod.snd h)
    · exact RespondResult.noConfusion (congrArg Prod.snd h)

/-- Claim C2 (confirmed): on an `approve = true` resolution, any failure —
no matching credential, a failed on-chain pre-sign re-check (trust, issuance,
revocation) or an underivable attribute — returns without touching the
storage, so the request stays exactly as it was (in particular `pending`,
with no `resolvedAt` or presentation attached), and the caller receives the
error of the failing step (`Revoked` on a revoked credential, the
no-credential error on selection failure, the underivable-attribute error on
derivation failure). -/
theorem respond_approve_failure_frame (C : Crypto) (R : Registry) (wA wK : String)
    (st : Storage) (id now : String) (ms : Int) :
    (∀ (st₁ : Storage) (resp : RespondResult),
        respond C R wA wK st id true now ms = (st₁, resp) →
        (∀ v : VPRecord, resp ≠ .okVp v) → st₁ = st)
    ∧ (∀ r : ProofRequest, id ≠ "" → alistGet st.requests id = some r → r.status = .pending →
        findMatchingCredential (st.credentials.map (·.2)) r.attributes r.issuerPublicKey = none →
        respond C R wA wK st id true now ms = (st, .noCredential))
    ∧ (∀ (r : ProofRequest) (vc : StoredCred) (padded : String), id ≠ "" →
        alistGet st.requests id = some r → r.status = .pending →
        findMatchingCredential (st.credentials.map (·.2)) r.attributes r.issuerPublicKey = some vc →
        walletPad vc.credentialHash = some padded →
        R.isIssuerTrusted vc.issuerPublicKey = true →
        R.isCredentialIssued padded = true →
        R.isCredentialRevoked padded = true →
        respond C R wA wK st id true now ms = (st, .revoked))
    ∧ (∀ (r : ProofRequest) (vc : StoredCred) (padded a : String), id ≠ "" →
        alistGet st.requests id = some r → r.status = .pending →
        findMatchingCredential (st.credentials.map (·.2)) r.attributes r.issuerPublicKey = some vc →
        walletPad vc.credentialHash = some padded →
        R.isIssuerTrusted vc.issuerPublicKey = true →
        R.isCredentialIssued padded = true →
        R.isCredentialRevoked padded = false →
        deriveAttrs vc.vc r.attributes ms = .error (.unsupported a) →
        respond C R wA wK st id true now ms = (st, .cannotDerive a)) := by
  refine ⟨?_, ?_, ?_, ?_⟩
  · intro st₁ resp h hne
    unfold respond at h
    split at h
    · rename_i st2 r2 heq
      obtain ⟨h1, h2⟩ := Prod.mk.injEq _ _ _ _ ▸ h
      subst h1
      exact respondP1_true_done _ _ _ _ _ heq
    · exact respondP2_frame _ _ _ _ _ _ _ _ _ _ _ _ _ h hne
  · intro r hid hget hst hfind
    simp [respond, respondP1, hid, hget, hst, hfind]
  · intro r vc padded hid hget hst hfind hpad ht hi hv
    simp [respond, respondP1, respondP2, hid, hget, hst, hfind, hpad, ht, hi, hv]
  · intro r vc padded a hid hget hst hfind hpad ht hi hv hder
    simp [respond, respondP1, respondP2, hid, hget, hst, hfind, hpad, ht, hi, hv, hder]

/-- Witness for C2: the pending `sampleReq` resolved with `approve = true`
against a registry that reports the selected credential revoked — the caller
gets the revocation error and the storage (hence the request) is unchanged. -/
theorem respond_approve_failure_frame_witness :
    respond hexCrypto revokedRegistry "wa" "wa" sampleSt "r1" true "T" 0
      = (sampleSt, .revoked) :=
  (respond_approve_failure_frame hexCrypto revokedRegistry "wa" "wa" sampleSt "r1" "T" 0).2.2.1
    sampleReq sampleCred
    "0x00000000000000000000000000000000000000000000000000000000000000aa"
    (by decide) rfl rfl rfl (by decide) rfl rfl rfl

/-- Claim C5 (confirmed): the request lifecycle is `pending` (initial) with
the terminal states `approved` and `rejected`: resolving an unknown id fails
with the not-found error, resolving a non-pending request fails with the
already-handled error and changes nothing, and after any successful
resolution (reject or approve) the stored record is terminal — carrying the
attached presentation in the approved case — and every later resolution
attempt returns the already-handled error with the storage unchanged. -/
theorem request_state_machine (C : Crypto) (R : Registry) (wA wK : String) (st : Storage)
    (id : String) (approve : Bool) (now : String) (ms : Int) :
    (id ≠ "" → alistGet st.requests id = none →
      respond C R wA wK st id approve now ms = (st, .notFound))
    ∧ (∀ r : ProofRequest, id ≠ "" → alistGet st.requests id = some r → r.status ≠ .pending →
        respond C R wA wK st id approve now ms = (st, .alreadyHandled r.status))
    ∧ (∀ st₁ : Storage, respond C R wA wK st id approve now ms = (st₁, .rejectedOk) →
        ∃ r₁ : ProofRequest, alistGet st₁.requests id = some r₁ ∧ r₁.status = .rejected ∧
          ∀ (b : Bool) (now₂ : String) (ms₂ : Int),
            respond C R wA wK st₁ id b now₂ ms₂ = (st₁, .alreadyHandled .rejected))
    ∧ (∀ (st₁ : Storage) (v : VPRecord),
        respond C R wA wK st id approve now ms = (st₁, .okVp v) →
        ∃ r₁ : ProofRequest, alistGet st₁.requests id = some r₁ ∧ r₁.status = .approved ∧
          r₁.vp = some v ∧
          ∀ (b : Bool) (now₂ : String) (ms₂ : Int),
            respond C R wA wK st₁ id b now₂ ms₂ = (st₁, .alreadyHandled .approved)) := by
  refine ⟨?_, ?_, ?_, ?_⟩
  · intro hid hget
    simp [respond, respondP1, hid, hget]
  · intro r hid hget hst
    exact respond_nonpending C R wA wK st id approve now ms r hid hget hst
  · intro st₁ h
    obtain ⟨hid, happ, r, hget, hst, hsteq⟩ := respond_rejected_inv C R wA wK st id approve now ms st₁ h
    subst hsteq
    refine ⟨{ r with status := .rejected, resolvedAt := some now }, alistGet_put_self _ _ _, rfl, ?_⟩
    intro b now₂ ms₂
    refine respond_nonpending C R wA wK
      ⟨st.credentials, alistPut st.requests id { r with status := .rejected, resolvedAt := some now }⟩
      id b now₂ ms₂ { r with status := .rejected, resolvedAt := some now } hid ?_ ?_
    · exact alistGet_put_self _ _ _
    · simp
  · intro st₁ v h
    obtain ⟨hid, happ, r, vc, padded, derived, hget, hst, hfind, hpad, ht, hi, hv, hder,
      hveq, hsteq⟩ := respond_okVp_inv C R wA wK st id approve now ms st₁ v h
    subst hsteq
    refine ⟨{ r with status := .approved, resolvedAt := some now, vp := some v },
      alistGet_put_self _ _ _, rfl, rfl, ?_⟩
    intro b now₂ ms₂
    refine respond_nonpending C R wA wK
      ⟨st.credentials, alistPut st.requests id { r with status := .approved, resolvedAt := some now, vp := some v }⟩
      id b now₂ ms₂ { r with status := .approved, resolvedAt := some now, vp := some v } hid ?_ ?_
    · exact alistGet_put_self _ _ _
    · simp

/-- A storage whose only request has already been rejected. -/
def handledSt : Storage :=
  ⟨[("aa", sampleCred)],
   [("r1", { sampleReq with status := .rejected, resolvedAt := some "T" })]⟩

/-- Witness for C5: resolving the already-rejected request of `handledSt`
fails with the already-handled error and leaves the storage unchanged. -/
theorem request_state_machine_witness :
    respond hexCrypto allGoodRegistry "wa" "wa" handledSt "r1" true "T2" 0
      = (handledSt, .alreadyHandled .rejected) :=
  (request_state_machine hexCrypto allGoodRegistry "wa" "wa" handledSt "r1" true "T2" 0).2.1
    { sampleReq with status := .rejected, resolvedAt := some "T" }
    (by decide) rfl (by simp)

/-- Claim C3 (confirmed): for every presentation produced by an approved
resolution, the verifier's reconstruction of the relay payload from the
received fields (`vp`, `credentialHash`, `issuerPublicKey`,
`issuerSignature`, `backend`, `requestId`, `verifierId`, excluding
`backendSignature`) is byte-identical to the string the holder signed, so —
for recovery satisfying the ECDSA law and a wallet whose address belongs to
its key — recovering the signer from the relay signature over that
reconstruction yields the holder's address. -/
theorem relay_payload_roundtrip (C : Crypto) (R : Registry) (wA wK : String)
    (st : Storage) (id now : String) (ms : Int) (st₁ : Storage) (v : VPRecord)
    (hrs : ∀ sk m, C.recover m (C.sign sk m) = some (C.addr sk))
    (hck : wA = C.addr wK)
    (h : respond C R wA wK st id true now ms = (st₁, .okVp v)) :
    reconstructPayload (transportVP v)
      = mkVpPayload v.vp v.credentialHash v.issuerPublicKey v.issuerSignature
          v.backendAddress v.backendTimestamp v.requestId v.verifierId
    ∧ v.backendSignature
      = C.sign wK (stringifyVal (mkVpPayload v.vp v.credentialHash v.issuerPublicKey
          v.issuerSignature v.backendAddress v.backendTimestamp v.requestId v.verifierId))
    ∧ C.recover (stringifyVal (reconstructPayload (transportVP v))) v.backendSignature
      = some v.backendAddress := by
  obtain ⟨hid, happ, r, vc, padded, derived, hget, hst, hfind, hpad, ht, hi, hv, hder,
    hveq, hsteq⟩ := respond_okVp_inv C R wA wK st id true now ms st₁ v h
  subst hveq
  refine ⟨rfl, rfl, ?_⟩
  have hlaw := hrs wK (stringifyVal (mkVpPayload derived vc.credentialHash vc.issuerPublicKey
    vc.issuerSignature wA now id r.verifierId))
  rw [← hck] at hlaw
  exact hlaw

/-- The presentation `/respond` produces from `sampleSt` under
`trivialCrypto` at time `"T"`. -/
def sampleVP : VPRecord :=
  { vp := [("name", .str "John Doe")], credentialHash := "aa",
    issuerPublicKey := "issuer1", issuerSignature := "sig1", backendAddress := "wa",
    backendTimestamp := "T", requestId := "r1", verifierId := "bank",
    backendSignature := "wa" }

/-- The storage after that approval. -/
def approvedSt : Storage :=
  ⟨[("aa", sampleCred)],
   [("r1", { sampleReq with status := .approved, resolvedAt := some "T", vp := some sampleVP })]⟩

/-- Witness for C3: the concrete approved run on `sampleSt`, whose relay
signature recovers to the wallet address over the reconstructed payload. -/
theorem relay_payload_roundtrip_witness :
    respond trivialCrypto allGoodRegistry "wa" "wa" sampleSt "r1" true "T" 0
      = (approvedSt, .okVp sampleVP)
    ∧ trivialCrypto.recover (stringifyVal (reconstructPayload (transportVP sampleVP)))
        sampleVP.backendSignature = some sampleVP.backendAddress := by
  have h : respond trivialCrypto allGoodRegistry "wa" "wa" sampleSt "r1" true "T" 0
      = (approvedSt, .okVp sampleVP) := rfl
  exact ⟨h, (relay_payload_roundtrip trivialCrypto allGoodRegistry "wa" "wa" sampleSt "r1"
    "T" 0 approvedSt sampleVP (fun sk m => rfl) rfl h).2.2⟩

/-- Claim C6 (confirmed): `/verify-vp` runs its checks in the fixed order
structural presence (malformed), relay-signature recovery against
`backend.address` (relay mismatch), issuer-signature recovery over the
credential hash against the issuer id (issuer mismatch), issuer trust,
issuance, revocation — stopping at the first failure with that step's error —
and on success returns the disclosed attributes, both recovered identities
and the three registry booleans; the handler is a pure function of the
presentation and registry and touches no store. -/
theorem verifyVp_pipeline (C : Crypto) (R : Registry) (p : VPInput) :
    ((truthyS p.credentialHash && truthyS p.issuerPublicKey && truthyS p.issuerSignature &&
        truthyJ p.backend && truthyS p.backendSignature) = false →
      verifyVp C R (some p) = .malformed)
    ∧ (∀ (recB a : String),
        (truthyS p.credentialHash && truthyS p.issuerPublicKey && truthyS p.issuerSignature &&
          truthyJ p.backend && truthyS p.backendSignature) = true →
        C.recover (stringifyVal (reconstructPayload p)) (p.backendSignature.getD "") = some recB →
        getBackendAddress p.backend = some a →
        lowerStr recB ≠ lowerStr a →
        verifyVp C R (some p) = .relayMismatch)
    ∧ (∀ (recB a recI : String),
        (truthyS p.credentialHash && truthyS p.issuerPublicKey && truthyS p.issuerSignature &&
          truthyJ p.backend && truthyS p.backendSignature) = true →
        C.recover (stringifyVal (reconstructPayload p)) (p.backendSignature.getD "") = some recB →
        getBackendAddress p.backend = some a →
        lowerStr recB = lowerStr a →
        C.recover (p.credentialHash.getD "") (p.issuerSignature.getD "") = some recI →
        lowerStr recI ≠ lowerStr (p.issuerPublicKey.getD "") →
        verifyVp C R (some p) = .issuerMismatch)
    ∧ (∀ (recB a recI padded : String),
        (truthyS p.credentialHash && truthyS p.issuerPublicKey && truthyS p.issuerSignature &&
          truthyJ p.backend && truthyS p.backendSignature) = true →
        C.recover (stringifyVal (reconstructPayload p)) (p.backendSignature.getD "") = some recB →
        getBackendAddress p.backend = some a →
        lowerStr recB = lowerStr a →
        C.recover (p.credentialHash.getD "") (p.issuerSignature.getD "") = some recI →
        lowerStr recI = lowerStr (p.issuerPublicKey.getD "") →
        paddedHashBytes32 (p.credentialHash.getD "") = some padded →
        (R.isIssuerTrusted (p.issuerPublicKey.getD "") = false →
          verifyVp C R (some p) = .untrusted)
        ∧ (R.isIssuerTrusted (p.issuerPublicKey.getD "") = true →
            R.isCredentialIssued padded = false →
            verifyVp C R (some p) = .notIssued)
        ∧ (R.isIssuerTrusted (p.issuerPublicKey.getD "") = true →
            R.isCredentialIssued padded = true →
            R.isCredentialRevoked padded = true →
            verifyVp C R (some p) = .revoked)
        ∧ (R.isIssuerTrusted (p.issuerPublicKey.getD "") = true →
            R.isCredentialIssued padded = true →
            R.isCredentialRevoked padded = false →
            verifyVp C R (some p) = .ok recB recI true true false p.vp)) := by
  refine ⟨?_, ?_, ?_, ?_⟩
  · intro hS
    simp [verifyVp, hS]
  · intro recB a hS hrec haddr hne
    simp [verifyVp, hS, hrec, haddr, hne]
  · intro recB a recI hS hrec haddr heqB hrecI hne
    simp [verifyVp, hS, hrec, haddr, heqB, hrecI, hne]
  · intro recB a recI padded hS hrec haddr heqB hrecI heqI hpad
    refine ⟨?_, ?_, ?_, ?_⟩
    · intro ht
      simp [verifyVp, hS, hrec, haddr, heqB, hrecI, heqI, hpad, ht]
    · intro ht hi
      simp [verifyVp, hS, hrec, haddr, heqB, hrecI, heqI, hpad, ht, hi]
    · intro ht hi hv
      simp [verifyVp, hS, hrec, haddr, heqB, hrecI, heqI, hpad, ht, hi, hv]
    · intro ht hi hv
      simp [verifyVp, hS, hrec, haddr, heqB, hrecI, heqI, hpad, ht, hi, hv]

/-- Witness for C6: a structurally incomplete presentation (missing
`credentialHash`) is rejected as malformed before any signature or registry
check. -/
theorem verifyVp_pipeline_witness :
    (truthyS (none : Option String) && truthyS (some "i") && truthyS (some "s") &&
      truthyJ (some (.obj [])) && truthyS (some "b")) = false
    ∧ verifyVp trivialCrypto allGoodRegistry
        (some ⟨none, none, some "i", some "s", some (.obj []), some "b", none, none⟩)
        = .malformed :=
  ⟨by decide,
   (verifyVp_pipeline trivialCrypto allGoodRegistry
     ⟨none, none, some "i", some "s", some (.obj []), some "b", none, none⟩).1 (by decide)⟩

/-- The storage after the reject path of the race interleaving. -/
def rejectedRaceSt : Storage :=
  ⟨[("aa", sampleCred)],
   [("r1", { sampleReq with status := .rejected, resolvedAt := some "T2" })]⟩

/-- The presentation committed by the resumed approval in the race
interleaving. -/
def raceVP : VPRecord :=
  { vp := [("name", .str "John Doe")], credentialHash := "aa",
    issuerPublicKey := "issuer1", issuerSignature := "sig1", backendAddress := "wa",
    backendTimestamp := "T3", requestId := "r1", verifierId := "bank",
    backendSignature := "wa" }

/-- The storage after the resumed approval overwrote the rejected record. -/
def raceFinalSt : Storage :=
  ⟨[("aa", sampleCred)],
   [("r1", { sampleReq with status := .approved, resolvedAt := some "T3", vp := some raceVP })]⟩

/-- Claim C10 (code bug). The claim (and the spec's concurrency section)
requires the status to be re-checked as still `pending` before the approved
transition is committed after the blocking registry calls, so that of two
concurrent resolutions of the same request at most one succeeds and the
other observes the already-handled error. The handler performs no such
re-check: in the event-loop interleaving below, call A (`approve = true`)
suspends at its first registry `await` (`respondP1` returns the
continuation), call B (`approve = false`) then runs to completion and
commits `rejected`, and A's resumption (`respondP2`) commits `approved`
over the terminal record — both callers succeed and the terminal state is
overwritten. -/
theorem respond_commit_skips_pending_recheck :
    respondP1 sampleSt "r1" true "T1"
      = .cont sampleReq sampleCred
          "0x00000000000000000000000000000000000000000000000000000000000000aa"
    ∧ respond trivialCrypto allGoodRegistry "wa" "wa" sampleSt "r1" false "T2" 0
      = (rejectedRaceSt, .rejectedOk)
    ∧ respondP2 trivialCrypto allGoodRegistry "wa" "wa" rejectedRaceSt "r1" sampleReq
        sampleCred "0x00000000000000000000000000000000000000000000000000000000000000aa"
        "T3" 0
      = (raceFinalSt, .okVp raceVP)
    ∧ (alistGet rejectedRaceSt.requests "r1").map ProofRequest.status = some .rejected
    ∧ (alistGet raceFinalSt.requests "r1").map ProofRequest.status = some .approved :=
  ⟨rfl, rfl, rfl, rfl, rfl⟩

end SSI
